import Mathlib

/-!
Verification of the NSEC3 denial-of-existence verifier of the solvere
resolver (nsec.go).

The embedding follows the source line by line.  Hashing is out of scope for
this component: each NSEC3 record exposes its two hash queries, Match and
Cover, as opaque boolean predicates on names, exactly the interface the
verifier consumes.  Go's `(value, error)` returns become `Except`, and the
`[]uint16` type bitmaps become `List Nat`.
-/

/-! String constants used by the embedding and by the concrete test data. -/

def rootName : String := "."

def emptyName : String := ""

def starDot : String := "*."

/-! DNS type codes, from the dns package constants used by nsec.go. -/

def TypeNS : Nat := 2

def TypeCNAME : Nat := 5

def TypeSOA : Nat := 6

def TypeDS : Nat := 43

/-- Error taxonomy of nsec.go (the ErrNSEC* variables, lines 11-19). -/
inductive NSECError where
  | Mismatch
  | TypeExists
  | MultipleCoverage
  | MissingCoverage
  | BadDelegation
  | NSMissing
  | OptOut
deriving DecidableEq

/-- Modelled from the spec: the dns.NSEC3 record type is not part of this
repository; per the spec's data model an NSEC3 record exposes two opaque
hash queries -- Match (exact ownership) and Cover (range coverage) -- plus a
type bitmap and its flags byte, whose lowest bit is the opt-out flag. -/
structure NSEC3 where
  Match : String → Bool
  Cover : String → Bool
  TypeBitMap : List Nat
  Flags : Nat

/-- Modelled from the spec: the Question type is declared elsewhere in the
resolver; per the spec it is a domain name plus a 16-bit record type code
(the source calls this field Type, a keyword here). -/
structure Question where
  Name : String
  Qtype : Nat

/-- typesSet (nsec.go lines 21-32): whether any element of `set` is one of
`types` (the Go code materialises `types` as a hash set first, which only
affects lookup cost, not membership). -/
def typesSet (set : List Nat) (types : List Nat) : Bool :=
  set.any (fun t => types.contains t)

/-- Helper for the label path: the suffixes of a character list that start
right after each dot, excluding the empty suffix after a trailing dot. -/
def labelPathAux : List Char → List String
  | [] => []
  | c :: rest =>
    if c = '.' then
      if rest = [] then [] else String.mk rest :: labelPathAux rest
    else labelPathAux rest

/-- Modelled from the spec: the Label Path Generator (the source delegates
to dns.Split of the dns package, not part of this repository).  Per the
spec it turns a domain name into the ordered sequence of its ancestor
suffixes from the full name down to and including the root, one per label
boundary. -/
def labelPath (name : String) : List String :=
  if name = rootName then [rootName]
  else name :: (labelPathAux name.data ++ [rootName])

/-- findMatching (nsec.go lines 54-62): first record whose Match predicate
holds for the name yields its type bitmap; otherwise MissingCoverage. -/
def findMatching (name : String) (nsec : List NSEC3) : Except NSECError (List Nat) :=
  match nsec with
  | [] => Except.error NSECError.MissingCoverage
  | n :: rest =>
    if n.Match name then Except.ok n.TypeBitMap else findMatching name rest

/-- findCoverer (nsec.go lines 64-72): first record whose Cover predicate
holds yields its type bitmap and opt-out flag (Flags & 1 == 1); otherwise
MissingCoverage. -/
def findCoverer (name : String) (nsec : List NSEC3) : Except NSECError (List Nat × Bool) :=
  match nsec with
  | [] => Except.error NSECError.MissingCoverage
  | n :: rest =>
    if n.Cover name then Except.ok (n.TypeBitMap, (n.Flags &&& 1) == 1) else findCoverer name rest

/-- Loop of findClosestEncloser (nsec.go lines 40-50): walk the suffixes
longest first; `nc` carries the previously inspected suffix (initially the
full name), which is exactly `name[labelIndices[i-1]:]` of the source when
the match happens at index i > 0, and the full name when i = 0. -/
def findClosestEncloserLoop (nc : String) (path : List String) (nsec : List NSEC3) :
    String × String :=
  match path with
  | [] => (emptyName, emptyName)
  | z :: rest =>
    match findMatching z nsec with
    | Except.error _ => findClosestEncloserLoop z rest nsec
    | Except.ok _ => (z, nc)

/-- findClosestEncloser (nsec.go lines 36-52). -/
def findClosestEncloser (name : String) (nsec : List NSEC3) : String × String :=
  findClosestEncloserLoop name (labelPath name) nsec

/-- verifyNameError (nsec.go lines 75-85).  The source binds
`ce := (findClosestEncloser q.Name nsec).1` once; the call is repeated here
verbatim since it is pure. -/
def verifyNameError (q : Question) (nsec : List NSEC3) : Except NSECError Unit :=
  if (findClosestEncloser q.Name nsec).1 = emptyName then
    Except.error NSECError.MissingCoverage
  else
    match findCoverer (starDot ++ (findClosestEncloser q.Name nsec).1) nsec with
    | Except.error e => Except.error e
    | Except.ok _ => Except.ok ()

/-- verifyNODATA (nsec.go lines 89-131). -/
def verifyNODATA (q : Question) (nsec : List NSEC3) : Except NSECError Unit :=
  match findMatching q.Name nsec with
  | Except.error e =>
    if q.Qtype ≠ TypeDS then Except.error e
    else if (findClosestEncloser q.Name nsec).1 = emptyName then
      Except.error NSECError.MissingCoverage
    else
      match findCoverer (findClosestEncloser q.Name nsec).2 nsec with
      | Except.error e2 => Except.error e2
      | Except.ok (_, optOut) =>
        if !optOut then Except.error NSECError.OptOut else Except.ok ()
  | Except.ok types =>
    if typesSet types [q.Qtype, TypeCNAME] then Except.error NSECError.TypeExists
    else Except.ok ()

/-- verifyDelegation (nsec.go lines 138-161). -/
def verifyDelegation (delegation : String) (nsec : List NSEC3) : Except NSECError Unit :=
  match findMatching delegation nsec with
  | Except.error _ =>
    if (findClosestEncloser delegation nsec).1 = emptyName then
      Except.error NSECError.MissingCoverage
    else
      match findCoverer (findClosestEncloser delegation nsec).2 nsec with
      | Except.error e => Except.error e
      | Except.ok (_, optOut) =>
        if !optOut then Except.error NSECError.OptOut else Except.ok ()
  | Except.ok types =>
    if !typesSet types [TypeNS] then Except.error NSECError.NSMissing
    else if typesSet types [TypeDS, TypeSOA] then Except.error NSECError.BadDelegation
    else Except.ok ()

/-! The source actually receives `[]dns.RR` and downcasts every element with
`rr.(*dns.NSEC3)`, which panics on any non-NSEC3 element.  The following
mirror of the two scans and the verifiers keeps that panic observable: the
result is wrapped in `Option`, with `none` standing for the panic. -/

/-- Modelled from the spec: `dns.RR` is the dns package's resource-record
interface; for this component a record either is an NSEC3 record or it is
something else (on which the downcast panics). -/
inductive RR where
  | nsec3 (n : NSEC3)
  | other

/-- RR.isNSEC3 tests whether the downcast `rr.(*dns.NSEC3)` would succeed. -/
def RR.isNSEC3 : RR → Bool
  | RR.nsec3 _ => true
  | RR.other => false

/-- allNSEC3 is the well-typedness precondition: every record of the set is
an NSEC3 record. -/
def allNSEC3 (l : List RR) : Bool :=
  l.all RR.isNSEC3

/-- projectNSEC3 extracts the NSEC3 payloads of a record set, dropping any
non-NSEC3 element. -/
def projectNSEC3 (l : List RR) : List NSEC3 :=
  l.filterMap (fun r =>
    match r with
    | RR.nsec3 n => some n
    | RR.other => none)

/-- findMatchingRR: findMatching over `[]dns.RR` with the downcast kept;
`none` models the panic of `rr.(*dns.NSEC3)` on a non-NSEC3 element. -/
def findMatchingRR (name : String) (nsec : List RR) : Option (Except NSECError (List Nat)) :=
  match nsec with
  | [] => some (Except.error NSECError.MissingCoverage)
  | RR.other :: _ => none
  | RR.nsec3 n :: rest =>
    if n.Match name then some (Except.ok n.TypeBitMap) else findMatchingRR name rest

/-- findCovererRR: findCoverer over `[]dns.RR` with the downcast kept. -/
def findCovererRR (name : String) (nsec : List RR) :
    Option (Except NSECError (List Nat × Bool)) :=
  match nsec with
  | [] => some (Except.error NSECError.MissingCoverage)
  | RR.other :: _ => none
  | RR.nsec3 n :: rest =>
    if n.Cover name then some (Except.ok (n.TypeBitMap, (n.Flags &&& 1) == 1))
    else findCovererRR name rest

/-- Loop of findClosestEncloser over `[]dns.RR`, propagating the panic. -/
def findClosestEncloserLoopRR (nc : String) (path : List String) (nsec : List RR) :
    Option (String × String) :=
  match path with
  | [] => some (emptyName, emptyName)
  | z :: rest =>
    match findMatchingRR z nsec with
    | none => none
    | some (Except.error _) => findClosestEncloserLoopRR z rest nsec
    | some (Except.ok _) => some (z, nc)

/-- findClosestEncloser over `[]dns.RR`, propagating the panic. -/
def findClosestEncloserRR (name : String) (nsec : List RR) : Option (String × String) :=
  findClosestEncloserLoopRR name (labelPath name) nsec

/-- verifyNameError over `[]dns.RR`, propagating the panic. -/
def verifyNameErrorRR (q : Question) (nsec : List RR) : Option (Except NSECError Unit) :=
  match findClosestEncloserRR q.Name nsec with
  | none => none
  | some ce =>
    if ce.1 = emptyName then some (Except.error NSECError.MissingCoverage)
    else
      match findCovererRR (starDot ++ ce.1) nsec with
      | none => none
      | some (Except.error e) => some (Except.error e)
      | some (Except.ok _) => some (Except.ok ())

/-- verifyNODATA over `[]dns.RR`, propagating the panic. -/
def verifyNODATARR (q : Question) (nsec : List RR) : Option (Except NSECError Unit) :=
  match findMatchingRR q.Name nsec with
  | none => none
  | some (Except.error e) =>
    if q.Qtype ≠ TypeDS then some (Except.error e)
    else
      match findClosestEncloserRR q.Name nsec with
      | none => none
      | some ce =>
        if ce.1 = emptyName then some (Except.error NSECError.MissingCoverage)
        else
          match findCovererRR ce.2 nsec with
          | none => none
          | some (Except.error e2) => some (Except.error e2)
          | some (Except.ok (_, optOut)) =>
            if !optOut then some (Except.error NSECError.OptOut) else some (Except.ok ())
  | some (Except.ok types) =>
    if typesSet types [q.Qtype, TypeCNAME] then some (Except.error NSECError.TypeExists)
    else some (Except.ok ())

/-- verifyDelegation over `[]dns.RR`, propagating the panic. -/
def verifyDelegationRR (delegation : String) (nsec : List RR) :
    Option (Except NSECError Unit) :=
  match findMatchingRR delegation nsec with
  | none => none
  | some (Except.error _) =>
    match findClosestEncloserRR delegation nsec with
    | none => none
    | some ce =>
      if ce.1 = emptyName then some (Except.error NSECError.MissingCoverage)
      else
        match findCovererRR ce.2 nsec with
        | none => none
        | some (Except.error e) => some (Except.error e)
        | some (Except.ok (_, optOut)) =>
          if !optOut then some (Except.error NSECError.OptOut) else some (Except.ok ())
  | some (Except.ok types) =>
    if !typesSet types [TypeNS] then some (Except.error NSECError.NSMissing)
    else if typesSet types [TypeDS, TypeSOA] then some (Except.error NSECError.BadDelegation)
    else some (Except.ok ())

/-! Spec-side characterisations of the two scans, written from the spec's
words (section 4.2 and 4.3): first record in set order whose predicate
holds, MissingCoverage when none does. -/

/-- findMatchingSpec states the spec's description of findMatching: the type
bitmap of the first record in set order whose Match predicate holds for the
name, MissingCoverage when no record matches. -/
def findMatchingSpec (name : String) (nsec : List NSEC3) : Except NSECError (List Nat) :=
  match nsec.find? (fun n => n.Match name) with
  | some n => Except.ok n.TypeBitMap
  | none => Except.error NSECError.MissingCoverage

/-- findCovererSpec states the spec's description of findCoverer: the type
bitmap and opt-out flag of the first record in set order whose Cover
predicate holds, MissingCoverage when none covers. -/
def findCovererSpec (name : String) (nsec : List NSEC3) :
    Except NSECError (List Nat × Bool) :=
  match nsec.find? (fun n => n.Cover name) with
  | some n => Except.ok (n.TypeBitMap, (n.Flags &&& 1) == 1)
  | none => Except.error NSECError.MissingCoverage

/-- allowedResults lists the verifier outcomes the spec admits: success,
MissingCoverage, TypeExists, OptOut, NSMissing and BadDelegation -- neither
Mismatch nor MultipleCoverage appears. -/
def allowedResults : List (Except NSECError Unit) :=
  [Except.ok (), Except.error NSECError.MissingCoverage,
   Except.error NSECError.TypeExists, Except.error NSECError.OptOut,
   Except.error NSECError.NSMissing, Except.error NSECError.BadDelegation]

/-! Auxiliary lemmas about the two scans and the encloser walk. -/

theorem findMatching_eq_spec (name : String) (nsec : List NSEC3) :
    findMatching name nsec = findMatchingSpec name nsec := by
  induction nsec with
  | nil => rfl
  | cons n rest ih =>
    cases h : n.Match name with
    | true => simp [findMatching, findMatchingSpec, List.find?_cons_of_pos, h]
    | false =>
      rw [findMatching, if_neg (by simp [h]), ih, findMatchingSpec, findMatchingSpec,
        List.find?_cons_of_neg _ (by simp [h])]

theorem findCoverer_eq_spec (name : String) (nsec : List NSEC3) :
    findCoverer name nsec = findCovererSpec name nsec := by
  induction nsec with
  | nil => rfl
  | cons n rest ih =>
    cases h : n.Cover name with
    | true => simp [findCoverer, findCovererSpec, List.find?_cons_of_pos, h]
    | false =>
      rw [findCoverer, if_neg (by simp [h]), ih, findCovererSpec, findCovererSpec,
        List.find?_cons_of_neg _ (by simp [h])]

theorem findMatching_of_none (name : String) (nsec : List NSEC3)
    (h : ∀ n ∈ nsec, n.Match name = false) :
    findMatching name nsec = Except.error NSECError.MissingCoverage := by
  rw [findMatching_eq_spec, findMatchingSpec, List.find?_eq_none.mpr (by simpa using h)]

theorem findCoverer_of_none (name : String) (nsec : List NSEC3)
    (h : ∀ n ∈ nsec, n.Cover name = false) :
    findCoverer name nsec = Except.error NSECError.MissingCoverage := by
  rw [findCoverer_eq_spec, findCovererSpec, List.find?_eq_none.mpr (by simpa using h)]

theorem findMatching_of_find (name : String) (nsec : List NSEC3) (n : NSEC3)
    (h : nsec.find? (fun m => m.Match name) = some n) :
    findMatching name nsec = Except.ok n.TypeBitMap := by
  rw [findMatching_eq_spec, findMatchingSpec, h]

theorem findCoverer_of_find (name : String) (nsec : List NSEC3) (n : NSEC3)
    (h : nsec.find? (fun m => m.Cover name) = some n) :
    findCoverer name nsec = Except.ok (n.TypeBitMap, (n.Flags &&& 1) == 1) := by
  rw [findCoverer_eq_spec, findCovererSpec, h]

theorem findMatching_error_eq (name : String) (nsec : List NSEC3) (e : NSECError)
    (h : findMatching name nsec = Except.error e) : e = NSECError.MissingCoverage := by
  rw [findMatching_eq_spec, findMatchingSpec] at h
  cases hf : nsec.find? (fun n => n.Match name) <;> rw [hf] at h <;> simp_all

theorem findCoverer_error_eq (name : String) (nsec : List NSEC3) (e : NSECError)
    (h : findCoverer name nsec = Except.error e) : e = NSECError.MissingCoverage := by
  rw [findCoverer_eq_spec, findCovererSpec] at h
  cases hf : nsec.find? (fun n => n.Cover name) <;> rw [hf] at h <;> simp_all

theorem findMatching_ok_of_mem (name : String) (nsec : List NSEC3)
    (h : ∃ n ∈ nsec, n.Match name = true) :
    ∃ t, findMatching name nsec = Except.ok t := by
  rw [findMatching_eq_spec, findMatchingSpec]
  cases hf : nsec.find? (fun n => n.Match name) with
  | none =>
    obtain ⟨n, hn, hm⟩ := h
    have := List.find?_eq_none.mp hf n hn
    simp_all
  | some n => exact ⟨n.TypeBitMap, rfl⟩

theorem findCoverer_ok_of_mem (name : String) (nsec : List NSEC3)
    (h : ∃ n ∈ nsec, n.Cover name = true) :
    ∃ t, findCoverer name nsec = Except.ok t := by
  rw [findCoverer_eq_spec, findCovererSpec]
  cases hf : nsec.find? (fun n => n.Cover name) with
  | none =>
    obtain ⟨n, hn, hm⟩ := h
    have := List.find?_eq_none.mp hf n hn
    simp_all
  | some n => exact ⟨(n.TypeBitMap, (n.Flags &&& 1) == 1), rfl⟩

theorem findClosestEncloserLoop_of_none (nsec : List NSEC3) (path : List String) :
    ∀ nc : String, (∀ s ∈ path, ∀ n ∈ nsec, n.Match s = false) →
      findClosestEncloserLoop nc path nsec = (emptyName, emptyName) := by
  induction path with
  | nil => intro nc _; rfl
  | cons z rest ih =>
    intro nc h
    have hz : findMatching z nsec = Except.error NSECError.MissingCoverage :=
      findMatching_of_none _ _ (h z (by simp))
    rw [findClosestEncloserLoop, hz]
    exact ih z (fun s hs => h s (by simp [hs]))

theorem findClosestEncloserLoop_first (nsec : List NSEC3) (path : List String) :
    ∀ (nc : String) (i : Nat), i < path.length →
      (∃ n ∈ nsec, n.Match (path.getD i emptyName) = true) →
      (∀ j, j < i → ∀ n ∈ nsec, n.Match (path.getD j emptyName) = false) →
      findClosestEncloserLoop nc path nsec =
        (path.getD i emptyName, if i = 0 then nc else path.getD (i - 1) emptyName) := by
  induction path with
  | nil => intro nc i hi; simp at hi
  | cons z rest ih =>
    intro nc i hi hmatch hnone
    cases i with
    | zero =>
      simp only [List.getD_cons_zero] at hmatch ⊢
      obtain ⟨t, ht⟩ := findMatching_ok_of_mem _ _ hmatch
      simp [findClosestEncloserLoop, ht]
    | succ k =>
      have h0 : ∀ n ∈ nsec, n.Match z = false := by
        have := hnone 0 (Nat.succ_pos k)
        simpa using this
      have hz := findMatching_of_none _ _ h0
      have hk : k < rest.length := by simpa using hi
      have hm : ∃ n ∈ nsec, n.Match (rest.getD k emptyName) = true := by
        simpa using hmatch
      have hn : ∀ j, j < k → ∀ n ∈ nsec, n.Match (rest.getD j emptyName) = false := by
        intro j hj
        have := hnone (j + 1) (by omega)
        simpa using this
      rw [findClosestEncloserLoop, hz, ih z k hk hm hn]
      cases k with
      | zero => simp
      | succ m => simp [List.getD_cons_succ]

theorem self_mem_labelPath (name : String) : name ∈ labelPath name := by
  by_cases h : name = rootName <;> simp [labelPath, h]

/-! Concrete data used by witnesses and counterexamples.  The names mirror
the spec's own test sketch: a zone `example.` with a non-existent child
`nx.example.`. -/

def nxName : String := "nx.example."

def exampleName : String := "example."

/-- recMatchExample matches exactly `example.` and asserts an NS record. -/
def recMatchExample : NSEC3 :=
  { Match := fun s => s == exampleName, Cover := fun _ => false,
    TypeBitMap := [TypeNS], Flags := 0 }

/-- recCoverWild covers exactly the wildcard `*.example.`, opt-out set. -/
def recCoverWild : NSEC3 :=
  { Match := fun _ => false, Cover := fun s => s == starDot ++ exampleName,
    TypeBitMap := [], Flags := 1 }

/-- recCoverNx covers exactly `nx.example.`, opt-out set. -/
def recCoverNx : NSEC3 :=
  { Match := fun _ => false, Cover := fun s => s == nxName,
    TypeBitMap := [], Flags := 1 }

/-- recMatchDSOnly matches exactly `example.` with only the DS bit. -/
def recMatchDSOnly : NSEC3 :=
  { Match := fun s => s == exampleName, Cover := fun _ => false,
    TypeBitMap := [TypeDS], Flags := 0 }

/-- C1: if some record matches the suffix of N at position i of the label
path and no record matches any strictly longer suffix (an earlier position),
findClosestEncloser returns that suffix together with the suffix one label
longer on the path to N, degenerating to N itself at position 0. -/
theorem claim_C1_closest_encloser (N A : String) (R : List NSEC3) (i : Nat)
    (hi : i < (labelPath N).length)
    (hA : (labelPath N).getD i emptyName = A)
    (hmatch : ∃ n ∈ R, n.Match A = true)
    (hnone : ∀ j, j < i → ∀ n ∈ R, n.Match ((labelPath N).getD j emptyName) = false) :
    findClosestEncloser N R =
      (A, if i = 0 then N else (labelPath N).getD (i - 1) emptyName) := by
  subst hA
  unfold findClosestEncloser
  exact findClosestEncloserLoop_first R (labelPath N) N i hi hmatch hnone

/-- C1 witness: for `nx.example.` and a set matching only `example.`, the
encloser is `example.` and the next closer name is `nx.example.`. -/
theorem claim_C1_witness :
    findClosestEncloser nxName [recMatchExample] = (exampleName, nxName) := by
  have h := claim_C1_closest_encloser nxName exampleName [recMatchExample] 1
    (by decide) (by decide)
    ⟨recMatchExample, by simp, by decide⟩
    (by
      intro j hj n hn
      have hj0 : j = 0 := by omega
      subst hj0
      have hn0 : n = recMatchExample := by simpa using hn
      subst hn0
      decide)
  exact h.trans (by decide)

/-- C2 counterexample: a record matching the delegation name whose bitmap
holds DS but not NS makes verifyDelegation fail with NSMissing, not with
BadDelegation, refuting "BadDelegation whenever DS or SOA is present,
regardless of whether the NS bit is set". -/
theorem claim_C2_counterexample :
    (∃ n ∈ [recMatchDSOnly], n.Match exampleName = true)
    ∧ typesSet recMatchDSOnly.TypeBitMap [TypeDS, TypeSOA] = true
    ∧ verifyDelegation exampleName [recMatchDSOnly] = Except.error NSECError.NSMissing
    ∧ NSECError.NSMissing ≠ NSECError.BadDelegation :=
  ⟨⟨recMatchDSOnly, by simp, by decide⟩, by decide, by rfl, by decide⟩

/-- C2 amended: when a record matches the delegation name, verifyDelegation
fails with NSMissing whenever the bitmap lacks NS (even if DS or SOA is
present); when NS is present it fails with BadDelegation if DS or SOA is
present, and succeeds when neither is. -/
theorem claim_C2_amended (D : String) (R : List NSEC3) (n : NSEC3)
    (h : R.find? (fun m => m.Match D) = some n) :
    (typesSet n.TypeBitMap [TypeNS] = false →
        verifyDelegation D R = Except.error NSECError.NSMissing)
    ∧ (typesSet n.TypeBitMap [TypeNS] = true →
        typesSet n.TypeBitMap [TypeDS, TypeSOA] = true →
        verifyDelegation D R = Except.error NSECError.BadDelegation)
    ∧ (typesSet n.TypeBitMap [TypeNS] = true →
        typesSet n.TypeBitMap [TypeDS, TypeSOA] = false →
        verifyDelegation D R = Except.ok ()) := by
  have hm := findMatching_of_find D R n h
  refine ⟨fun h1 => ?_, fun h1 h2 => ?_, fun h1 h2 => ?_⟩
  · simp [verifyDelegation, hm, h1]
  · simp [verifyDelegation, hm, h1, h2]
  · simp [verifyDelegation, hm, h1, h2]

/-- C2 witness: both surviving branches of the amended claim, exercised on
concrete delegations. -/
theorem claim_C2_witness :
    verifyDelegation exampleName [recMatchExample] = Except.ok ()
    ∧ verifyDelegation exampleName [recMatchDSOnly] = Except.error NSECError.NSMissing :=
  ⟨(claim_C2_amended exampleName [recMatchExample] recMatchExample rfl).2.2 rfl rfl,
   (claim_C2_amended exampleName [recMatchDSOnly] recMatchDSOnly rfl).1 rfl⟩

/-- C3: when no record matches the question's name, verifyNODATA fails with
MissingCoverage for non-DS queries; for DS queries it fails with
MissingCoverage when no closest encloser exists or no record covers the next
closer name, and otherwise succeeds exactly when the first covering record's
opt-out flag is set, failing with OptOut when it is clear. -/
theorem claim_C3_nodata_unmatched (q : Question) (R : List NSEC3)
    (h : ∀ n ∈ R, n.Match q.Name = false) :
    (q.Qtype ≠ TypeDS → verifyNODATA q R = Except.error NSECError.MissingCoverage)
    ∧ (q.Qtype = TypeDS →
        ((findClosestEncloser q.Name R).1 = emptyName →
            verifyNODATA q R = Except.error NSECError.MissingCoverage)
        ∧ ((findClosestEncloser q.Name R).1 ≠ emptyName →
            ((∀ n ∈ R, n.Cover (findClosestEncloser q.Name R).2 = false) →
                verifyNODATA q R = Except.error NSECError.MissingCoverage)
            ∧ (∀ n, R.find? (fun m => m.Cover (findClosestEncloser q.Name R).2) = some n →
                (verifyNODATA q R = Except.ok () ↔ ((n.Flags &&& 1) == 1) = true)
                ∧ (((n.Flags &&& 1) == 1) = false →
                    verifyNODATA q R = Except.error NSECError.OptOut)))) := by
  have hm := findMatching_of_none q.Name R h
  constructor
  · intro hq
    simp [verifyNODATA, hm, hq]
  · intro hq
    constructor
    · intro hce
      simp [verifyNODATA, hm, hq, hce]
    · intro hce
      constructor
      · intro hcov
        have hc := findCoverer_of_none _ R hcov
        simp [verifyNODATA, hm, hq, hce, hc]
      · intro n hfind
        have hc := findCoverer_of_find _ R n hfind
        constructor
        · cases hflag : ((n.Flags &&& 1) == 1) with
          | true =>
            have h2 : n.Flags % 2 = 1 := by
              have h3 := hflag
              simp [Nat.and_one_is_mod] at h3
              omega
            simp [verifyNODATA, hm, hq, hce, hc, hflag, h2]
          | false =>
            have h2 : n.Flags % 2 = 0 := by
              have h3 := hflag
              simp [Nat.and_one_is_mod] at h3
              omega
            simp [verifyNODATA, hm, hq, hce, hc, hflag, h2]
        · intro hflag
          have h2 : n.Flags % 2 = 0 := by
            have h3 := hflag
            simp [Nat.and_one_is_mod] at h3
            omega
          simp [verifyNODATA, hm, hq, hce, hc, hflag, h2]

/-- C3 witness: a DS query for an unmatched name, with encloser `example.`
and a covering record for the next closer name whose opt-out flag is set,
succeeds. -/
theorem claim_C3_witness :
    verifyNODATA ⟨nxName, TypeDS⟩ [recMatchExample, recCoverNx] = Except.ok () := by
  have h := claim_C3_nodata_unmatched ⟨nxName, TypeDS⟩ [recMatchExample, recCoverNx]
    (by intro n hn; simp at hn; rcases hn with rfl | rfl <;> decide)
  exact (((h.2 rfl).2 (by decide)).2 recCoverNx (by rfl)).1.mpr (by decide)

/-- C4: when a record matches the question's name, verifyNODATA fails with
TypeExists exactly when the matched bitmap holds the queried type or CNAME,
and succeeds when it holds neither. -/
theorem claim_C4_nodata_matched (q : Question) (R : List NSEC3) (n : NSEC3)
    (h : R.find? (fun m => m.Match q.Name) = some n) :
    (verifyNODATA q R = Except.error NSECError.TypeExists ↔
        typesSet n.TypeBitMap [q.Qtype, TypeCNAME] = true)
    ∧ (typesSet n.TypeBitMap [q.Qtype, TypeCNAME] = false →
        verifyNODATA q R = Except.ok ()) := by
  have hm := findMatching_of_find q.Name R n h
  cases ht : typesSet n.TypeBitMap [q.Qtype, TypeCNAME] <;>
    simp [verifyNODATA, hm, ht]

/-- C4 witness: `example.` matched with bitmap lacking both the queried
type and CNAME yields success. -/
theorem claim_C4_witness :
    verifyNODATA ⟨exampleName, 1⟩ [recMatchExample] = Except.ok () :=
  (claim_C4_nodata_matched ⟨exampleName, 1⟩ [recMatchExample] recMatchExample rfl).2 rfl

/-- C5: verifyNameError fails with MissingCoverage when no closest encloser
exists; otherwise it succeeds when some record covers the wildcard
candidate `*.` ++ encloser and propagates the Coverer's MissingCoverage
failure when none does. -/
theorem claim_C5_name_error (q : Question) (R : List NSEC3) :
    ((findClosestEncloser q.Name R).1 = emptyName →
        verifyNameError q R = Except.error NSECError.MissingCoverage)
    ∧ ((findClosestEncloser q.Name R).1 ≠ emptyName →
        ((∃ n ∈ R, n.Cover (starDot ++ (findClosestEncloser q.Name R).1) = true) →
            verifyNameError q R = Except.ok ())
        ∧ ((∀ n ∈ R, n.Cover (starDot ++ (findClosestEncloser q.Name R).1) = false) →
            verifyNameError q R = Except.error NSECError.MissingCoverage)) := by
  constructor
  · intro hce
    simp [verifyNameError, hce]
  · intro hce
    constructor
    · intro hcov
      obtain ⟨t, ht⟩ := findCoverer_ok_of_mem _ R hcov
      simp [verifyNameError, hce, ht]
    · intro hcov
      have hc := findCoverer_of_none _ R hcov
      simp [verifyNameError, hce, hc]

/-- C5 witness: with a match for `example.` and a record covering
`*.example.`, the name error for `nx.example.` verifies; dropping the
wildcard-covering record yields MissingCoverage. -/
theorem claim_C5_witness :
    verifyNameError ⟨nxName, 1⟩ [recMatchExample, recCoverWild] = Except.ok ()
    ∧ verifyNameError ⟨nxName, 1⟩ [recMatchExample] =
        Except.error NSECError.MissingCoverage := by
  constructor
  · exact ((claim_C5_name_error ⟨nxName, 1⟩ [recMatchExample, recCoverWild]).2
      (by decide)).1 ⟨recCoverWild, by simp, by decide⟩
  · exact ((claim_C5_name_error ⟨nxName, 1⟩ [recMatchExample]).2 (by decide)).2
      (by intro n hn; simp at hn; subst hn; decide)

/-- C6: when no record matches any suffix on the label path of N, the
encloser search returns the empty sentinel and verifyNameError,
verifyNODATA on a DS question, and verifyDelegation all fail with
MissingCoverage. -/
theorem claim_C6_no_encloser (N : String) (R : List NSEC3) (t : Nat)
    (h : ∀ s ∈ labelPath N, ∀ n ∈ R, n.Match s = false) :
    findClosestEncloser N R = (emptyName, emptyName)
    ∧ verifyNameError ⟨N, t⟩ R = Except.error NSECError.MissingCoverage
    ∧ verifyNODATA ⟨N, TypeDS⟩ R = Except.error NSECError.MissingCoverage
    ∧ verifyDelegation N R = Except.error NSECError.MissingCoverage := by
  have hce : findClosestEncloser N R = (emptyName, emptyName) := by
    unfold findClosestEncloser
    exact findClosestEncloserLoop_of_none R (labelPath N) N h
  have hm : findMatching N R = Except.error NSECError.MissingCoverage :=
    findMatching_of_none N R (h N (self_mem_labelPath N))
  refine ⟨hce, ?_, ?_, ?_⟩
  · simp [verifyNameError, hce]
  · simp [verifyNODATA, hm, hce]
  · simp [verifyDelegation, hm, hce]

/-- C6 witness: a set holding a single record that matches nothing proves
no encloser for `nx.example.`, and all three dependent verifiers fail with
MissingCoverage. -/
theorem claim_C6_witness :
    findClosestEncloser nxName [recCoverNx] = (emptyName, emptyName)
    ∧ verifyNameError ⟨nxName, 1⟩ [recCoverNx] = Except.error NSECError.MissingCoverage
    ∧ verifyNODATA ⟨nxName, TypeDS⟩ [recCoverNx] = Except.error NSECError.MissingCoverage
    ∧ verifyDelegation nxName [recCoverNx] = Except.error NSECError.MissingCoverage :=
  claim_C6_no_encloser nxName [recCoverNx] 1
    (by intro s hs n hn; simp at hn; subst hn; rfl)

/-- C7: both scans return the first hit in set order -- stated against the
spec-side characterisations built on List.find? -- and fail with
MissingCoverage on the empty set. -/
theorem claim_C7_scans (name : String) (R : List NSEC3) :
    findMatching name R = findMatchingSpec name R
    ∧ findCoverer name R = findCovererSpec name R
    ∧ findMatching name ([] : List NSEC3) = Except.error NSECError.MissingCoverage
    ∧ findCoverer name ([] : List NSEC3) = Except.error NSECError.MissingCoverage :=
  ⟨findMatching_eq_spec name R, findCoverer_eq_spec name R, rfl, rfl⟩

/-! Helper lemmas locating every verifier outcome inside allowedResults. -/

theorem verifyNameError_mem_allowed (q : Question) (R : List NSEC3) :
    verifyNameError q R ∈ allowedResults := by
  unfold verifyNameError
  split
  · simp [allowedResults]
  · split
    · next e heq =>
      have he := findCoverer_error_eq _ _ _ heq
      subst he
      simp [allowedResults]
    · simp [allowedResults]

theorem verifyNODATA_mem_allowed (q : Question) (R : List NSEC3) :
    verifyNODATA q R ∈ allowedResults := by
  unfold verifyNODATA
  split
  · next e heq =>
    have he := findMatching_error_eq _ _ _ heq
    subst he
    split
    · simp [allowedResults]
    · split
      · simp [allowedResults]
      · split
        · next e2 heq2 =>
          have he2 := findCoverer_error_eq _ _ _ heq2
          subst he2
          simp [allowedResults]
        · split
          · simp [allowedResults]
          · simp [allowedResults]
  · split
    · simp [allowedResults]
    · simp [allowedResults]

theorem verifyDelegation_mem_allowed (d : String) (R : List NSEC3) :
    verifyDelegation d R ∈ allowedResults := by
  unfold verifyDelegation
  split
  · split
    · simp [allowedResults]
    · split
      · next e heq =>
        have he := findCoverer_error_eq _ _ _ heq
        subst he
        simp [allowedResults]
      · split
        · simp [allowedResults]
        · simp [allowedResults]
  · split
    · simp [allowedResults]
    · split
      · simp [allowedResults]
      · simp [allowedResults]

/-- C8: no verifier ever produces Mismatch or MultipleCoverage; every
outcome is success, MissingCoverage, TypeExists, OptOut, NSMissing or
BadDelegation. -/
theorem claim_C8_error_range (q : Question) (d : String) (R : List NSEC3) :
    verifyNameError q R ∈ allowedResults
    ∧ verifyNODATA q R ∈ allowedResults
    ∧ verifyDelegation d R ∈ allowedResults :=
  ⟨verifyNameError_mem_allowed q R, verifyNODATA_mem_allowed q R,
   verifyDelegation_mem_allowed d R⟩

/-- C9: verifyNameError never consults the next closer name: whenever a
closest encloser exists and some record covers the wildcard candidate, it
succeeds -- the second component of the encloser search is discarded. -/
theorem claim_C9_wildcard_only (q : Question) (R : List NSEC3)
    (h1 : (findClosestEncloser q.Name R).1 ≠ emptyName)
    (h2 : ∃ n ∈ R, n.Cover (starDot ++ (findClosestEncloser q.Name R).1) = true) :
    verifyNameError q R = Except.ok () := by
  obtain ⟨t, ht⟩ := findCoverer_ok_of_mem _ R h2
  simp [verifyNameError, h1, ht]

/-- C9 witness: the record set covers only the wildcard, no record covers
the next closer name `nx.example.`, and the name error still verifies. -/
theorem claim_C9_witness :
    (∀ n ∈ [recMatchExample, recCoverWild],
        n.Cover (findClosestEncloser nxName [recMatchExample, recCoverWild]).2 = false)
    ∧ verifyNameError ⟨nxName, TypeNS⟩ [recMatchExample, recCoverWild] = Except.ok () := by
  constructor
  · intro n hn
    simp at hn
    rcases hn with rfl | rfl <;> decide
  · exact claim_C9_wildcard_only ⟨nxName, TypeNS⟩ [recMatchExample, recCoverWild]
      (by decide) ⟨recCoverWild, by simp, by decide⟩

/-! Agreement of the `[]dns.RR` layer with the NSEC3 layer under the
well-typedness precondition, and the panic on a non-NSEC3 element. -/

theorem projectNSEC3_cons_nsec3 (n : NSEC3) (l : List RR) :
    projectNSEC3 (RR.nsec3 n :: l) = n :: projectNSEC3 l := by
  simp [projectNSEC3]

theorem findMatchingRR_agree (name : String) (l : List RR) (h : allNSEC3 l = true) :
    findMatchingRR name l = some (findMatching name (projectNSEC3 l)) := by
  induction l with
  | nil => rfl
  | cons r rest ih =>
    cases r with
    | other => simp [allNSEC3, RR.isNSEC3] at h
    | nsec3 n =>
      have hrest : allNSEC3 rest = true := by
        simpa [allNSEC3, RR.isNSEC3] using h
      cases hm : n.Match name with
      | true => simp [findMatchingRR, findMatching, projectNSEC3_cons_nsec3, hm]
      | false =>
        simp [findMatchingRR, findMatching, projectNSEC3_cons_nsec3, hm, ih hrest]
        rfl

theorem findCovererRR_agree (name : String) (l : List RR) (h : allNSEC3 l = true) :
    findCovererRR name l = some (findCoverer name (projectNSEC3 l)) := by
  induction l with
  | nil => rfl
  | cons r rest ih =>
    cases r with
    | other => simp [allNSEC3, RR.isNSEC3] at h
    | nsec3 n =>
      have hrest : allNSEC3 rest = true := by
        simpa [allNSEC3, RR.isNSEC3] using h
      cases hm : n.Cover name with
      | true => simp [findCovererRR, findCoverer, projectNSEC3_cons_nsec3, hm]
      | false =>
        simp [findCovererRR, findCoverer, projectNSEC3_cons_nsec3, hm, ih hrest]
        rfl

theorem findClosestEncloserLoopRR_agree (l : List RR) (h : allNSEC3 l = true)
    (path : List String) :
    ∀ nc : String, findClosestEncloserLoopRR nc path l =
      some (findClosestEncloserLoop nc path (projectNSEC3 l)) := by
  induction path with
  | nil => intro nc; rfl
  | cons z rest ih =>
    intro nc
    cases hm : findMatching z (projectNSEC3 l) with
    | error e =>
      simp [findClosestEncloserLoopRR, findClosestEncloserLoop,
        findMatchingRR_agree z l h, hm, ih]
    | ok t =>
      simp [findClosestEncloserLoopRR, findClosestEncloserLoop,
        findMatchingRR_agree z l h, hm]

theorem findClosestEncloserRR_agree (name : String) (l : List RR)
    (h : allNSEC3 l = true) :
    findClosestEncloserRR name l = some (findClosestEncloser name (projectNSEC3 l)) :=
  findClosestEncloserLoopRR_agree l h (labelPath name) name

theorem verifyNameErrorRR_agree (q : Question) (l : List RR) (h : allNSEC3 l = true) :
    verifyNameErrorRR q l = some (verifyNameError q (projectNSEC3 l)) := by
  have hce := findClosestEncloserRR_agree q.Name l h
  by_cases h1 : (findClosestEncloser q.Name (projectNSEC3 l)).1 = emptyName
  · simp [verifyNameErrorRR, verifyNameError, hce, h1]
  · have hcov := findCovererRR_agree
      (starDot ++ (findClosestEncloser q.Name (projectNSEC3 l)).1) l h
    cases hc : findCoverer (starDot ++ (findClosestEncloser q.Name (projectNSEC3 l)).1)
        (projectNSEC3 l) with
    | error e => simp [verifyNameErrorRR, verifyNameError, hce, h1, hcov, hc]
    | ok t => simp [verifyNameErrorRR, verifyNameError, hce, h1, hcov, hc]

theorem verifyNODATARR_agree (q : Question) (l : List RR) (h : allNSEC3 l = true) :
    verifyNODATARR q l = some (verifyNODATA q (projectNSEC3 l)) := by
  have hma := findMatchingRR_agree q.Name l h
  cases hm : findMatching q.Name (projectNSEC3 l) with
  | ok types =>
    cases ht : typesSet types [q.Qtype, TypeCNAME] <;>
      simp [verifyNODATARR, verifyNODATA, hma, hm, ht]
  | error e =>
    by_cases hq : q.Qtype ≠ TypeDS
    · simp [verifyNODATARR, verifyNODATA, hma, hm, hq]
    · have hce := findClosestEncloserRR_agree q.Name l h
      by_cases h1 : (findClosestEncloser q.Name (projectNSEC3 l)).1 = emptyName
      · simp [verifyNODATARR, verifyNODATA, hma, hm, hq, hce, h1]
      · have hcov := findCovererRR_agree
          (findClosestEncloser q.Name (projectNSEC3 l)).2 l h
        cases hc : findCoverer (findClosestEncloser q.Name (projectNSEC3 l)).2
            (projectNSEC3 l) with
        | error e2 =>
          simp [verifyNODATARR, verifyNODATA, hma, hm, hq, hce, h1, hcov, hc]
        | ok t =>
          cases hb : t.2 <;>
            simp [verifyNODATARR, verifyNODATA, hma, hm, hq, hce, h1, hcov, hc, hb]

theorem verifyDelegationRR_agree (d : String) (l : List RR) (h : allNSEC3 l = true) :
    verifyDelegationRR d l = some (verifyDelegation d (projectNSEC3 l)) := by
  have hma := findMatchingRR_agree d l h
  cases hm : findMatching d (projectNSEC3 l) with
  | ok types =>
    cases hns : typesSet types [TypeNS] <;>
      cases hds : typesSet types [TypeDS, TypeSOA] <;>
        simp [verifyDelegationRR, verifyDelegation, hma, hm, hns, hds]
  | error e =>
    have hce := findClosestEncloserRR_agree d l h
    by_cases h1 : (findClosestEncloser d (projectNSEC3 l)).1 = emptyName
    · simp [verifyDelegationRR, verifyDelegation, hma, hm, hce, h1]
    · have hcov := findCovererRR_agree (findClosestEncloser d (projectNSEC3 l)).2 l h
      cases hc : findCoverer (findClosestEncloser d (projectNSEC3 l)).2
          (projectNSEC3 l) with
      | error e2 =>
        simp [verifyDelegationRR, verifyDelegation, hma, hm, hce, h1, hcov, hc]
      | ok t =>
        cases hb : t.2 <;>
          simp [verifyDelegationRR, verifyDelegation, hma, hm, hce, h1, hcov, hc, hb]

theorem findMatchingRR_panic (name : String) (rest : List RR) (pre : List RR)
    (hall : allNSEC3 pre = true)
    (h : ∀ n ∈ projectNSEC3 pre, n.Match name = false) :
    findMatchingRR name (pre ++ RR.other :: rest) = none := by
  induction pre with
  | nil => rfl
  | cons r p ih =>
    cases r with
    | other => simp [allNSEC3, RR.isNSEC3] at hall
    | nsec3 n =>
      rw [projectNSEC3_cons_nsec3] at h
      have hn : n.Match name = false := h n (List.mem_cons_self n _)
      have hp : ∀ m ∈ projectNSEC3 p, m.Match name = false := by
        intro m hm
        exact h m (List.mem_cons_of_mem n hm)
      have ha : allNSEC3 p = true := by simpa [allNSEC3, RR.isNSEC3] using hall
      simp [findMatchingRR, hn, ih ha hp]

theorem findCovererRR_panic (name : String) (rest : List RR) (pre : List RR)
    (hall : allNSEC3 pre = true)
    (h : ∀ n ∈ projectNSEC3 pre, n.Cover name = false) :
    findCovererRR name (pre ++ RR.other :: rest) = none := by
  induction pre with
  | nil => rfl
  | cons r p ih =>
    cases r with
    | other => simp [allNSEC3, RR.isNSEC3] at hall
    | nsec3 n =>
      rw [projectNSEC3_cons_nsec3] at h
      have hn : n.Cover name = false := h n (List.mem_cons_self n _)
      have hp : ∀ m ∈ projectNSEC3 p, m.Cover name = false := by
        intro m hm
        exact h m (List.mem_cons_of_mem n hm)
      have ha : allNSEC3 p = true := by simpa [allNSEC3, RR.isNSEC3] using hall
      simp [findCovererRR, hn, ih ha hp]

/-- C10: when every supplied record is an NSEC3 record, the downcast never
fires and both scans and all verifiers built on them are total, computing
exactly the NSEC3-level results; a non-NSEC3 record reached during a scan
(no matching or covering NSEC3 record before it) makes the scan panic,
modelled as `none`, instead of returning an error. -/
theorem claim_C10_downcast (name d : String) (q : Question) (l pre rest : List RR)
    (h1 : allNSEC3 l = true)
    (h2 : allNSEC3 pre = true)
    (h3 : ∀ n ∈ projectNSEC3 pre, n.Match name = false ∧ n.Cover name = false) :
    findMatchingRR name l = some (findMatching name (projectNSEC3 l))
    ∧ findCovererRR name l = some (findCoverer name (projectNSEC3 l))
    ∧ verifyNameErrorRR q l = some (verifyNameError q (projectNSEC3 l))
    ∧ verifyNODATARR q l = some (verifyNODATA q (projectNSEC3 l))
    ∧ verifyDelegationRR d l = some (verifyDelegation d (projectNSEC3 l))
    ∧ findMatchingRR name (pre ++ RR.other :: rest) = none
    ∧ findCovererRR name (pre ++ RR.other :: rest) = none :=
  ⟨findMatchingRR_agree name l h1, findCovererRR_agree name l h1,
   verifyNameErrorRR_agree q l h1, verifyNODATARR_agree q l h1,
   verifyDelegationRR_agree d l h1,
   findMatchingRR_panic name rest pre h2 (fun n hn => (h3 n hn).1),
   findCovererRR_panic name rest pre h2 (fun n hn => (h3 n hn).2)⟩

/-- C10 witness: a well-typed singleton set is total on every operation,
and prefixing a non-NSEC3 record makes both scans panic. -/
theorem claim_C10_witness :
    findMatchingRR nxName [RR.nsec3 recMatchExample] =
      some (findMatching nxName (projectNSEC3 [RR.nsec3 recMatchExample]))
    ∧ findCovererRR nxName [RR.nsec3 recMatchExample] =
      some (findCoverer nxName (projectNSEC3 [RR.nsec3 recMatchExample]))
    ∧ verifyNameErrorRR ⟨nxName, 1⟩ [RR.nsec3 recMatchExample] =
      some (verifyNameError ⟨nxName, 1⟩ (projectNSEC3 [RR.nsec3 recMatchExample]))
    ∧ verifyNODATARR ⟨nxName, 1⟩ [RR.nsec3 recMatchExample] =
      some (verifyNODATA ⟨nxName, 1⟩ (projectNSEC3 [RR.nsec3 recMatchExample]))
    ∧ verifyDelegationRR nxName [RR.nsec3 recMatchExample] =
      some (verifyDelegation nxName (projectNSEC3 [RR.nsec3 recMatchExample]))
    ∧ findMatchingRR nxName ([] ++ RR.other :: [RR.nsec3 recMatchExample]) = none
    ∧ findCovererRR nxName ([] ++ RR.other :: [RR.nsec3 recMatchExample]) = none :=
  claim_C10_downcast nxName nxName ⟨nxName, 1⟩ [RR.nsec3 recMatchExample] []
    [RR.nsec3 recMatchExample] rfl rfl
    (by intro n hn; simp [projectNSEC3] at hn)
